import Mathlib

/-!
# Verification of the music-client state core

Shallow embedding of the repository's stateful services (download registry,
playlist registry, playback queue, audio engine, ephemeral cache, status
reconciliation) and proofs of the specified properties.

JavaScript conventions modelled explicitly:
* array indices are `Int` where the source can produce `-1` (`findIndex`);
* `arr[i]` is `Option`-valued (`undefined` out of bounds);
* `Map`/`Set` become association lists / lists of keys;
* asynchronous collaborators (network, filesystem, clock, randomness) are
  oracle parameters, and the effects a call performs are returned as a trace.
-/

/-- JS `arr[i]`: `undefined` (`none`) when `i` is negative or past the end. -/
def getJS {α : Type} (l : List α) (i : Int) : Option α :=
  if i < 0 then none else l.get? i.toNat

/-- JS `Array.prototype.findIndex`: index of the first match, `-1` if none. -/
def findIndexJS {α : Type} (p : α → Bool) (l : List α) : Int :=
  match l.findIdx? p with
  | some i => (i : Int)
  | none => -1

/-- A downloaded track record (`DownloadedSong` in `downloadService`). -/
structure DownloadedSong where
  id : String
  name : String
  artists : String
  album : String
  coverUrl : String
  localPath : String
  downloadedAt : Nat
  duration : Option Nat := none
  fileSize : Option Nat := none
deriving DecidableEq, Repr

namespace Playback

/-- The repeat mode of the playback queue (`'off' | 'all' | 'one'`). -/
inductive RepeatMode where
  | off
  | all
  | one
deriving DecidableEq, Repr

/-- The transient playback queue (`PlaybackQueue` in `playbackService`).
`currentIndex` is an `Int` because JS `findIndex` can store `-1`. -/
structure PlaybackQueue where
  songs : List DownloadedSong
  currentIndex : Int
  isShuffled : Bool
  repeatMode : RepeatMode
  originalOrder : Option (List DownloadedSong) := none
deriving DecidableEq, Repr

/-- Oracle for the audio engine as seen from `playbackService`: the result of
`audioService.playSong` for a given track (network/codec dependent). -/
structure AudioEnv where
  playSongResult : DownloadedSong → Bool

/-- `playCurrentSong`: plays `songs[currentIndex]`; `false` when the index is
out of bounds (JS `undefined` guard) or the engine fails to load. -/
def playCurrentSong (env : AudioEnv) (q : PlaybackQueue) : Bool :=
  match getJS q.songs q.currentIndex with
  | none => false
  | some s => env.playSongResult s

/-- `playNext` from `playbackService`: advance the index, wrapping to 0 only
when repeat mode is `all`; returns the play result and the updated queue. -/
def playNext (env : AudioEnv) (q : PlaybackQueue) : Bool × PlaybackQueue :=
  if q.songs.length = 0 then (false, q)
  else
    let nextIndex := q.currentIndex + 1
    if (q.songs.length : Int) ≤ nextIndex then
      if q.repeatMode = RepeatMode.all then
        let q' := { q with currentIndex := 0 }
        (playCurrentSong env q', q')
      else
        (false, q)
    else
      let q' := { q with currentIndex := nextIndex }
      (playCurrentSong env q', q')

/-- `playPrevious` from `playbackService`. `pos` is the engine's current
position in milliseconds (`audioService.getPosition()`): more than 3000 ms in,
the track is restarted (seek 0, return `true`). At the front boundary with
repeat mode not `all`, the source seeks to 0 and returns `true` without
assigning `currentIndex`. -/
def playPrevious (env : AudioEnv) (pos : Int) (q : PlaybackQueue) :
    Bool × PlaybackQueue :=
  if q.songs.length = 0 then (false, q)
  else if 3000 < pos then (true, q)
  else
    let prevIndex := q.currentIndex - 1
    if prevIndex < 0 then
      if q.repeatMode = RepeatMode.all then
        let q' := { q with currentIndex := (q.songs.length : Int) - 1 }
        (playCurrentSong env q', q')
      else
        (true, q)
    else
      let q' := { q with currentIndex := prevIndex }
      (playCurrentSong env q', q')

end Playback

namespace Playback

/-- A concrete song for witnesses and counterexamples. -/
def sampleSong : DownloadedSong :=
  { id := "t1", name := "Song A", artists := "Artist", album := "Album",
    coverUrl := "c1", localPath := "p1", downloadedAt := 10 }

/-- A second concrete song. -/
def sampleSong2 : DownloadedSong :=
  { id := "t2", name := "Song B", artists := "Artist", album := "Album",
    coverUrl := "c2", localPath := "p2", downloadedAt := 20 }

/-- A concrete audio oracle on which every load succeeds. -/
def sampleAudioEnv : AudioEnv := { playSongResult := fun _ => true }

end Playback

namespace Playback

/-- The destructuring swap `[a[i], a[j]] = [a[j], a[i]]` on a list; identity
when either index is out of bounds (cannot happen in the source's loop). -/
def listSwap {α : Type} (l : List α) (i j : Nat) : List α :=
  match l.get? i, l.get? j with
  | some a, some b => (l.set i b).set j a
  | _, _ => l

/-- The Fisher–Yates loop of `shuffleArray`: `for (i = n-1; i > 0; i--)` swap
position `i` with position `r i % (i+1)`.  `Math.floor(Math.random()*(i+1))`
is an arbitrary value in `[0, i]`, modelled by the oracle `r` reduced
`% (i+1)`, which ranges over exactly the same set. -/
def fyLoop {α : Type} (r : Nat → Nat) : Nat → List α → List α
  | 0, l => l
  | i + 1, l => fyLoop r i (listSwap l (i + 1) (r (i + 1) % (i + 2)))

/-- `shuffleArray` from `playbackService` (copy, then in-place Fisher–Yates). -/
def shuffleArray {α : Type} (r : Nat → Nat) (l : List α) : List α :=
  fyLoop r (l.length - 1) l

/-- `toggleShuffle` from `playbackService`.  Returns `none` where the source
would throw a `TypeError` (reading `.id` of `undefined` when `currentIndex` is
out of bounds); otherwise `some (returnValue, newQueue)`. -/
def toggleShuffle (r : Nat → Nat) (q : PlaybackQueue) :
    Option (Bool × PlaybackQueue) :=
  if q.songs.length = 0 then some (false, q)
  else
    let isShuffled' := !q.isShuffled
    if isShuffled' then
      let originalOrder' :=
        match q.originalOrder with
        | none => some q.songs
        | some o => some o
      match getJS q.songs q.currentIndex with
      | none => none
      | some currentSong =>
        let songs' := shuffleArray r q.songs
        let idx' := findIndexJS (fun s => s.id == currentSong.id) songs'
        some (true, { q with songs := songs', currentIndex := idx',
                             isShuffled := true, originalOrder := originalOrder' })
    else
      match q.originalOrder with
      | some orig =>
        match getJS q.songs q.currentIndex with
        | none => none
        | some currentSong =>
          let idx' := findIndexJS (fun s => s.id == currentSong.id) orig
          let q' := { q with songs := orig, currentIndex := idx',
                             isShuffled := false }
          some (false, q')
      | none => some (false, { q with isShuffled := false })

end Playback

namespace Download

/-- The structured response of the download-resolution API
(`DownloadResponse` in `downloadService`); fields not read by
`downloadSong` are elided to their used subset. -/
structure DownloadResponse where
  album : String
  artist : String
  download_link : String
  spotify_cover_url : String
  spotify_track_id : String
  title : String
deriving DecidableEq, Repr

/-- The result object of `downloadSong`. -/
structure DownloadResult where
  success : Bool
  message : String
  song : Option DownloadedSong := none
deriving DecidableEq, Repr

/-- In-memory state of the download registry: the `downloadedSongs` map
(insertion-ordered association list, as a JS `Map`) and the
`currentlyDownloading` set (as the list of its members). -/
structure DownloadState where
  downloadedSongs : List (String × DownloadedSong)
  currentlyDownloading : List String
deriving DecidableEq, Repr

/-- JS `Map.prototype.get` on an association list. -/
def mapGet {β : Type} (m : List (String × β)) (k : String) : Option β :=
  match m.find? (fun e => e.fst == k) with
  | some e => some e.snd
  | none => none

/-- JS `Map.prototype.set`: overwrite in place if the key exists, else
append (insertion order preserved). -/
def mapSet {β : Type} (m : List (String × β)) (k : String) (v : β) :
    List (String × β) :=
  if (m.find? (fun e => e.fst == k)).isSome then
    m.map (fun e => if e.fst == k then (k, v) else e)
  else
    m ++ [(k, v)]

/-- JS `Set.prototype.add` on a membership list. -/
def setAdd (s : List String) (x : String) : List String :=
  if s.contains x then s else s ++ [x]

/-- JS `Set.prototype.delete` on a membership list. -/
def setDelete (s : List String) (x : String) : List String :=
  s.filter (fun y => y ≠ x)

/-- The observable asynchronous effects `downloadSong` performs, in order.
`listenerNotify` is a `notifyListeners()` call; the others are the awaited
collaborator calls. -/
inductive Effect where
  | listenerNotify
  | fetchDownloadInfo
  | sendToNeedSongs
  | browserDownload
  | fileDownload
  | coverDownload
  | persistRegistry
deriving DecidableEq, Repr

/-- Oracle for one `downloadSong` run: outcomes of the asynchronous
collaborator calls it can make.  `getDownloadInfo` wraps the network fetch
(`Except.error` = the thrown error's message, `Except.ok none` = track not
found); `downloadFile` / `downloadCoverImage` catch internally and return
`none` on failure; `platformIsWeb` is `Platform.OS === 'web'`; `now` is
`Date.now()` at record-creation time. -/
structure DownloadEnv where
  getDownloadInfo : Except String (Option DownloadResponse)
  downloadFile : Option String
  downloadCoverImage : Option String
  platformIsWeb : Bool
  now : Nat

/-- `downloadSong(trackId)` from `downloadService`, returning the result, the
final state, and the trace of awaited effects / listener notifications.
The source's top-level `try`/`catch` (which clears the in-flight marker and
converts the error to a failure result) is the `Except.error` branch of the
`getDownloadInfo` match — the only callee that can throw after acceptance. -/
def downloadSong (env : DownloadEnv) (trackId : String) (s : DownloadState) :
    DownloadResult × DownloadState × List Effect :=
  match mapGet s.downloadedSongs trackId with
  | some existing =>
    ({ success := false, message := "Song already downloaded",
       song := some existing }, s, [])
  | none =>
    if s.currentlyDownloading.contains trackId then
      ({ success := false, message := "Song is already being downloaded" },
       s, [])
    else if 0 < s.currentlyDownloading.length then
      ({ success := false,
         message := "Another song is currently downloading. Please wait for it to complete." },
       s, [])
    else
      let s1 : DownloadState :=
        { s with currentlyDownloading := setAdd s.currentlyDownloading trackId }
      let tr1 : List Effect := [Effect.listenerNotify, Effect.fetchDownloadInfo]
      match env.getDownloadInfo with
      | Except.error e =>
        ({ success := false, message := "Download failed: " ++ e },
         { s1 with currentlyDownloading := setDelete s1.currentlyDownloading trackId },
         tr1 ++ [Effect.listenerNotify])
      | Except.ok none =>
        ({ success := false,
           message := "Song not available yet. We'll add it to our database soon!" },
         { s1 with currentlyDownloading := setDelete s1.currentlyDownloading trackId },
         tr1 ++ [Effect.sendToNeedSongs, Effect.listenerNotify])
      | Except.ok (some downloadData) =>
        let webOrPath : Except (DownloadResult × DownloadState × List Effect) (String × List Effect) :=
          if env.platformIsWeb then
            Except.ok ("web_download_" ++ trackId, tr1 ++ [Effect.browserDownload])
          else
            match env.downloadFile with
            | none =>
              Except.error
                ({ success := false, message := "Failed to download file" },
                 { s1 with currentlyDownloading := setDelete s1.currentlyDownloading trackId },
                 tr1 ++ [Effect.fileDownload, Effect.listenerNotify])
            | some p => Except.ok (p, tr1 ++ [Effect.fileDownload])
        match webOrPath with
        | Except.error out => out
        | Except.ok (localPath, tr2) =>
          let coverPath := env.downloadCoverImage
          let song : DownloadedSong :=
            { id := trackId, name := downloadData.title,
              artists := downloadData.artist, album := downloadData.album,
              coverUrl := coverPath.getD downloadData.spotify_cover_url,
              localPath := localPath, downloadedAt := env.now }
          let s2 : DownloadState :=
            { s1 with downloadedSongs := mapSet s1.downloadedSongs trackId song }
          let s3 : DownloadState :=
            { s2 with currentlyDownloading := setDelete s2.currentlyDownloading trackId }
          ({ success := true, message := "Song downloaded successfully",
             song := some song },
           s3,
           tr2 ++ [Effect.coverDownload, Effect.persistRegistry,
                   Effect.listenerNotify, Effect.listenerNotify])

end Download

namespace Playlists

/-- A playlist record (`Playlist` in `playlistService`). -/
structure Playlist where
  id : String
  name : String
  description : Option String := none
  coverUrl : Option String := none
  songs : List DownloadedSong
  createdAt : Nat
  updatedAt : Nat
deriving DecidableEq, Repr

/-- The argument of `createPlaylist` / `updatePlaylist`
(`Partial<CreatePlaylistData>`): a field is `none` when the key is absent. -/
structure CreatePlaylistData where
  name : Option String := none
  description : Option String := none
  coverUrl : Option String := none
deriving DecidableEq, Repr

/-- The playlist registry's `playlists` map (insertion-ordered). -/
abbrev Registry := List (String × Playlist)

/-- The default cover applied by `createPlaylist` when none is given. -/
def defaultCover : String :=
  "https://images.pexels.com/photos/1763075/pexels-photo-1763075.jpeg?auto=compress&cs=tinysrgb&w=300"

/-- `createPlaylist(data)` from `playlistService`; `newId` is the generated
`playlist_<time>_<random>` id and `now` is `Date.now()`. Returns the created
playlist and the new registry. -/
def createPlaylist (newId : String) (now : Nat) (data : CreatePlaylistData)
    (reg : Registry) : Playlist × Registry :=
  let p : Playlist :=
    { id := newId, name := data.name.getD "", description := data.description,
      coverUrl := some (data.coverUrl.getD defaultCover),
      songs := [], createdAt := now, updatedAt := now }
  (p, Download.mapSet reg newId p)

/-- `updatePlaylist(id, updates)` from `playlistService`: partial field merge
(JS spread — a present key overwrites), bumps `updatedAt`. -/
def updatePlaylist (now : Nat) (id : String) (updates : CreatePlaylistData)
    (reg : Registry) : Bool × Registry :=
  match Download.mapGet reg id with
  | none => (false, reg)
  | some playlist =>
    let updated : Playlist :=
      { playlist with
        name := updates.name.getD playlist.name,
        description :=
          match updates.description with
          | some d => some d
          | none => playlist.description,
        coverUrl :=
          match updates.coverUrl with
          | some c => some c
          | none => playlist.coverUrl,
        updatedAt := now }
    (true, Download.mapSet reg id updated)

/-- `deletePlaylist(id)` from `playlistService`. -/
def deletePlaylist (id : String) (reg : Registry) : Bool × Registry :=
  let reg' := reg.filter (fun e => e.fst ≠ id)
  (decide (reg'.length ≠ reg.length), reg')

/-- `addSongToPlaylist(playlistId, song)` from `playlistService`: rejected
(`false`) when a song with the same id is already present. -/
def addSongToPlaylist (now : Nat) (playlistId : String) (song : DownloadedSong)
    (reg : Registry) : Bool × Registry :=
  match Download.mapGet reg playlistId with
  | none => (false, reg)
  | some playlist =>
    if playlist.songs.any (fun s => s.id == song.id) then (false, reg)
    else
      let updated := { playlist with songs := playlist.songs ++ [song],
                                     updatedAt := now }
      (true, Download.mapSet reg playlistId updated)

/-- `removeSongFromPlaylist(playlistId, songId)` from `playlistService`. -/
def removeSongFromPlaylist (now : Nat) (playlistId : String) (songId : String)
    (reg : Registry) : Bool × Registry :=
  match Download.mapGet reg playlistId with
  | none => (false, reg)
  | some playlist =>
    let filtered := playlist.songs.filter (fun song => song.id ≠ songId)
    if filtered.length = playlist.songs.length then (false, reg)
    else
      let updated := { playlist with songs := filtered, updatedAt := now }
      (true, Download.mapSet reg playlistId updated)

/-- `reorderPlaylistSongs(playlistId, newOrder)` from `playlistService`:
installs the caller-supplied sequence wholesale, with no duplicate check. -/
def reorderPlaylistSongs (now : Nat) (playlistId : String)
    (newOrder : List DownloadedSong) (reg : Registry) : Bool × Registry :=
  match Download.mapGet reg playlistId with
  | none => (false, reg)
  | some playlist =>
    let updated := { playlist with songs := newOrder, updatedAt := now }
    (true, Download.mapSet reg playlistId updated)

/-- `duplicatePlaylist(id, newName?)` from `playlistService`. -/
def duplicatePlaylist (newId : String) (now : Nat) (id : String)
    (newName : Option String) (reg : Registry) :
    Option Playlist × Registry :=
  match Download.mapGet reg id with
  | none => (none, reg)
  | some original =>
    let dup : Playlist :=
      { original with id := newId,
                      name := newName.getD (original.name ++ " (Copy)"),
                      createdAt := now, updatedAt := now }
    (some dup, Download.mapSet reg newId dup)

/-- The per-playlist invariant: no two entries of the song sequence share an
id. -/
def songsNodup (p : Playlist) : Prop :=
  (p.songs.map (fun s => s.id)).Nodup

instance (p : Playlist) : Decidable (songsNodup p) :=
  inferInstanceAs (Decidable (List.Nodup _))

/-- The registry-wide invariant: every stored playlist satisfies
`songsNodup`. -/
def registryInv (reg : Registry) : Prop :=
  ∀ e ∈ reg, songsNodup e.snd

instance (reg : Registry) : Decidable (registryInv reg) :=
  inferInstanceAs (Decidable (∀ e ∈ reg, songsNodup e.snd))

end Playlists

namespace Cache

/-- A cache entry (`CacheItem` in `cacheService`). -/
structure CacheItem (α : Type) where
  data : α
  timestamp : Nat
  expiresAt : Nat
deriving DecidableEq, Repr

/-- State of a `CacheService` instance: the in-memory map, the
`localStorage` mirror (keys stored under `cache_<key>`, modelled by the bare
key), and the platform flag. -/
structure CacheState (α : Type) where
  memoryCache : List (String × CacheItem α)
  localStorage : List (String × CacheItem α)
  platformIsWeb : Bool
deriving DecidableEq, Repr

/-- The shared `localStorage`-consulting tail of `get` (reached when the
memory entry is absent or expired). -/
def getWebPath {α : Type} (now : Nat) (key : String) (st : CacheState α) :
    Option α × CacheState α :=
  if st.platformIsWeb then
    match Download.mapGet st.localStorage key with
    | some parsed =>
      if now < parsed.expiresAt then
        (some parsed.data,
         { st with memoryCache := Download.mapSet st.memoryCache key parsed })
      else
        (none, { st with localStorage := st.localStorage.filter (fun e => e.fst ≠ key) })
    | none => (none, st)
  else (none, st)

/-- `CacheService.get(key)`: the value is returned only while
`expiresAt > Date.now()`.  An expired memory entry falls through to the
web path (and is NOT deleted from `memoryCache`). -/
def get {α : Type} (now : Nat) (key : String) (st : CacheState α) :
    Option α × CacheState α :=
  match Download.mapGet st.memoryCache key with
  | some memoryData =>
    if now < memoryData.expiresAt then (some memoryData.data, st)
    else getWebPath now key st
  | none => getWebPath now key st

/-- `CacheService.set(key, data, expirationSeconds)`. -/
def set {α : Type} (now : Nat) (key : String) (data : α)
    (expirationSeconds : Nat) (st : CacheState α) : CacheState α :=
  let item : CacheItem α :=
    { data := data, timestamp := now,
      expiresAt := now + expirationSeconds * 1000 }
  let st1 := { st with memoryCache := Download.mapSet st.memoryCache key item }
  if st.platformIsWeb then
    { st1 with localStorage := Download.mapSet st1.localStorage key item }
  else st1

end Cache

namespace Reconcile

/-- Status of a pending action record (`'pending' | 'approved'`). -/
inductive RStatus where
  | pending
  | approved
deriving DecidableEq, Repr

/-- A fix-report record (`FixSongReport` in `settingsService`). -/
structure FixSongReport where
  id : String
  name : String
  artists : String
  album : String
  downloadedAt : Nat
  reportedAt : Nat
  status : RStatus
deriving DecidableEq, Repr

/-- One tick of `checkFixReportsStatus`, acting on the persisted
`fix_reports` list.  `remote` is the outcome of the `GET /showfixed` call:
a thrown error, or a status code together with the ids of `fixed_songs`.
Returns the stored list after the tick and whether it was re-persisted
(`storageService.saveData` + `notifyListeners`, i.e. `hasUpdates`). -/
def checkFixReportsStatus (remote : Except String (Nat × List String))
    (reports : List FixSongReport) : List FixSongReport × Bool :=
  let pendingReports := reports.filter (fun report => report.status == RStatus.pending)
  if pendingReports.length = 0 then (reports, false)
  else
    match remote with
    | Except.error _ => (reports, false)
    | Except.ok (status, fixedIds) =>
      if status = 200 then
        let updatedReports := reports.map (fun report =>
          if report.status == RStatus.pending && fixedIds.contains report.id then
            { report with status := RStatus.approved }
          else report)
        let hasUpdates := reports.any (fun report =>
          report.status == RStatus.pending && fixedIds.contains report.id)
        if hasUpdates then (updatedReports, true) else (reports, false)
      else (reports, false)

/-- `createApprovalNotification(type, songName, id)` from the notification
service: consult the `notification_<type>_<id>` marker in the dedup cache;
if the marker is truthy, emit nothing, else emit one user-facing
notification and set the marker with a 86400-second TTL.  Returns whether a
notification was emitted and the new marker-cache state. -/
def createApprovalNotification (now : Nat) (typeStr : String) (id : String)
    (cache : Cache.CacheState Bool) : Bool × Cache.CacheState Bool :=
  let notificationKey := "notification_" ++ typeStr ++ "_" ++ id
  let got := Cache.get now notificationKey cache
  match got.fst with
  | some alreadyNotified =>
    if alreadyNotified then (false, got.snd)
    else (true, Cache.set now notificationKey true 86400 got.snd)
  | none => (true, Cache.set now notificationKey true 86400 got.snd)

end Reconcile

namespace Engine

/-- The fields of the expo-av playback status object read by
`onPlaybackStatusUpdate` (`positionMillis || 0` is `getD 0`). -/
structure AVStatus where
  isLoaded : Bool
  positionMillis : Option Nat := none
  durationMillis : Option Nat := none
  didJustFinish : Bool := false
  error : Option String := none
deriving DecidableEq, Repr

/-- The audio engine's own state (`AudioService` fields). -/
structure AudioState where
  currentSong : Option DownloadedSong
  isPlaying : Bool
  position : Nat
  duration : Nat
  soundLoaded : Bool
  pollingActive : Bool
deriving DecidableEq, Repr

/-- Externally observable events of the audio engine.  `songEndSignal` is
the end-of-track callback the queue controller's constructor tries to
register (`audioService.setOnSongEndCallback`); the `AudioService` class in
the source defines no such method and never invokes such a callback, so no
code path of this embedding emits it. -/
inductive AudioEvent where
  | statusNotify
  | songEndSignal
  | soundUnload
deriving DecidableEq, Repr

/-- `stop()` from the audio engine: unload and reset when a sound is
loaded, else a no-op. -/
def stop (st : AudioState) : AudioState × List AudioEvent :=
  if st.soundLoaded then
    ({ currentSong := none, isPlaying := false, position := 0, duration := 0,
       soundLoaded := false, pollingActive := false },
     [AudioEvent.soundUnload, AudioEvent.statusNotify])
  else (st, [])

/-- `onPlaybackStatusUpdate(status)` from the audio engine: refresh
position/duration; on `didJustFinish` go to Idle (position 0, polling
stopped) and notify the status listeners; on `status.error` fall into
`stop()`. -/
def onPlaybackStatusUpdate (st : AudioState) (status : AVStatus) :
    AudioState × List AudioEvent :=
  let stAndEvents :=
    if status.isLoaded then
      let st1 := { st with position := status.positionMillis.getD 0,
                           duration := status.durationMillis.getD 0 }
      if status.didJustFinish then
        ({ st1 with isPlaying := false, position := 0, pollingActive := false },
         [AudioEvent.statusNotify])
      else (st1, [])
    else (st, [])
  match status.error with
  | some _ =>
    let stopped := stop stAndEvents.fst
    (stopped.fst, stAndEvents.snd ++ stopped.snd)
  | none => stAndEvents

end Engine

section Theorems

open Playback

/-- C3: for every non-empty queue whose currentIndex is the last index,
`playNext()` with repeat mode `off` returns `false` and leaves the queue
(and in particular `currentIndex`) unchanged, and with repeat mode `all`
it wraps `currentIndex` to 0 (songs untouched). -/
theorem playNext_at_last_index (env : AudioEnv) (q : PlaybackQueue)
    (hne : q.songs ≠ [])
    (hidx : q.currentIndex = (q.songs.length : Int) - 1) :
    (q.repeatMode = RepeatMode.off → playNext env q = (false, q)) ∧
    (q.repeatMode = RepeatMode.all →
      (playNext env q).snd.currentIndex = 0 ∧
      (playNext env q).snd.songs = q.songs) := by
  have hlen : q.songs.length ≠ 0 := by
    simpa using List.length_pos.mpr hne |>.ne'
  have hge : (q.songs.length : Int) ≤ q.currentIndex + 1 := by
    rw [hidx]; omega
  constructor
  · intro hmode
    simp [playNext, hlen, hge, hmode]
  · intro hmode
    simp [playNext, hlen, hge, hmode]

/-- Witness for `playNext_at_last_index` at a concrete one-song queue. -/
theorem playNext_at_last_index_witness :
    playNext sampleAudioEnv
      { songs := [sampleSong], currentIndex := 0,
        isShuffled := false, repeatMode := RepeatMode.off } =
    (false,
      { songs := [sampleSong], currentIndex := 0,
        isShuffled := false, repeatMode := RepeatMode.off }) :=
  (playNext_at_last_index sampleAudioEnv
    { songs := [sampleSong], currentIndex := 0,
      isShuffled := false, repeatMode := RepeatMode.off }
    (by decide) (by decide)).1 rfl

end Theorems

section Theorems

open Playback

/-- C4 counterexample: at the front boundary (currentIndex 0, position 0 ms,
repeat mode `off`) `playPrevious()` returns `true` (it restarts the current
track), not `false` as the claim states; the queue is unchanged. -/
theorem playPrevious_boundary_returns_true :
    playPrevious sampleAudioEnv 0
      { songs := [sampleSong, sampleSong2], currentIndex := 0,
        isShuffled := false, repeatMode := RepeatMode.off } =
    (true,
      { songs := [sampleSong, sampleSong2], currentIndex := 0,
        isShuffled := false, repeatMode := RepeatMode.off }) := rfl

/-- C4 amended: for every non-empty queue at currentIndex 0 with playback
position at most 3000 ms, `playPrevious()` with repeat mode other than `all`
restarts the current track and returns `true`, leaving the queue (hence
`currentIndex`) unchanged; with repeat mode `all` it wraps `currentIndex` to
the last index (songs untouched). -/
theorem playPrevious_at_front_boundary (env : AudioEnv) (pos : Int)
    (q : PlaybackQueue) (hne : q.songs ≠ []) (hidx : q.currentIndex = 0)
    (hpos : pos ≤ 3000) :
    (q.repeatMode ≠ RepeatMode.all → playPrevious env pos q = (true, q)) ∧
    (q.repeatMode = RepeatMode.all →
      (playPrevious env pos q).snd.currentIndex = (q.songs.length : Int) - 1 ∧
      (playPrevious env pos q).snd.songs = q.songs) := by
  have hlen : q.songs.length ≠ 0 := by
    simpa using List.length_pos.mpr hne |>.ne'
  have hnpos : ¬ (3000 : Int) < pos := by omega
  have hneg : q.currentIndex - 1 < 0 := by rw [hidx]; omega
  constructor
  · intro hmode
    simp [playPrevious, hlen, hnpos, hneg, hmode]
  · intro hmode
    simp [playPrevious, hlen, hnpos, hneg, hmode]

/-- Witness for `playPrevious_at_front_boundary` at a concrete two-song
queue with repeat mode `all`. -/
theorem playPrevious_at_front_boundary_witness :
    (playPrevious sampleAudioEnv 1500
      { songs := [sampleSong, sampleSong2], currentIndex := 0,
        isShuffled := false, repeatMode := RepeatMode.all }).snd.currentIndex =
      1 :=
  ((playPrevious_at_front_boundary sampleAudioEnv 1500
    { songs := [sampleSong, sampleSong2], currentIndex := 0,
      isShuffled := false, repeatMode := RepeatMode.all }
    (by decide) (by decide) (by decide)).2 rfl).1

end Theorems

section MapLemmas

open Download

theorem mapGet_cons {β : Type} (a : String) (b : β) (t : List (String × β)) (k : String) :
    mapGet ((a, b) :: t) k = if a = k then some b else mapGet t k := by
  by_cases h : a = k
  · simp [mapGet, List.find?, h]
  · have hne : (a == k) = false := by simp [h]
    simp [mapGet, List.find?, hne, h]

theorem mapSet_nil {β : Type} (k : String) (v : β) :
    mapSet ([] : List (String × β)) k v = [(k, v)] := rfl

theorem mapSet_cons {β : Type} (a : String) (b : β) (t : List (String × β))
    (k : String) (v : β) :
    mapSet ((a, b) :: t) k v =
      if a = k then
        (k, v) :: t.map (fun e => if e.fst = k then (k, v) else e)
      else
        (a, b) :: mapSet t k v := by
  by_cases h : a = k
  · subst h
    simp [mapSet, List.find?]
  · have hne : (a == k) = false := by simp [h]
    by_cases hfind : (List.find? (fun e => e.fst == k) t).isSome
    · simp [mapSet, List.find?, hne, hfind, h]
    · simp [mapSet, List.find?, hne, hfind, h]

theorem mapGet_map_rewriteKey {β : Type} (t : List (String × β)) (k k' : String)
    (v : β) (h : k' ≠ k) :
    mapGet (t.map (fun e => if e.fst = k then (k, v) else e)) k' = mapGet t k' := by
  induction t with
  | nil => rfl
  | cons e t ih =>
    obtain ⟨a, b⟩ := e
    by_cases ha : a = k
    · subst ha
      simp [mapGet_cons, Ne.symm h, ih]
    · simp only [List.map_cons, if_neg ha]
      rw [mapGet_cons, mapGet_cons]
      by_cases hak : a = k'
      · simp [hak]
      · simp only [hak, if_false]
        exact ih

theorem mapGet_mapSet_self {β : Type} (m : List (String × β)) (k : String) (v : β) :
    mapGet (mapSet m k v) k = some v := by
  induction m with
  | nil => simp [mapSet_nil, mapGet_cons]
  | cons e t ih =>
    obtain ⟨a, b⟩ := e
    rw [mapSet_cons]
    by_cases h : a = k
    · simp [h, mapGet_cons]
    · simp only [h, if_false]
      rw [mapGet_cons]
      simp only [h, if_false]
      exact ih

theorem mapGet_mapSet_other {β : Type} (m : List (String × β)) (k k' : String)
    (v : β) (h : k' ≠ k) : mapGet (mapSet m k v) k' = mapGet m k' := by
  induction m with
  | nil =>
    rw [mapSet_nil, mapGet_cons, if_neg (Ne.symm h)]
  | cons e t ih =>
    obtain ⟨a, b⟩ := e
    rw [mapSet_cons]
    by_cases ha : a = k
    · subst ha
      rw [if_pos rfl, mapGet_cons, mapGet_cons, if_neg (Ne.symm h)]
      by_cases hak : a = k'
      · exact absurd hak.symm h
      · rw [if_neg hak]
        exact mapGet_map_rewriteKey t a k' v h
    · simp only [ha, if_false]
      rw [mapGet_cons, mapGet_cons]
      by_cases hak : a = k'
      · simp [hak]
      · simp only [hak, if_false]
        exact ih

end MapLemmas

section Theorems

open Playlists Download

/-- C10: `updatePlaylist(id, updates)` changes at most `name`,
`description` and `coverUrl` and sets `updatedAt` to the current time; the
playlist's `id`, `songs` and `createdAt` are unchanged and every other
registry entry is untouched; when `id` is absent the call returns `false`
and the whole registry is unchanged. -/
theorem updatePlaylist_frame (now : Nat) (id : String)
    (updates : CreatePlaylistData) (reg : Registry) :
    (mapGet reg id = none → updatePlaylist now id updates reg = (false, reg)) ∧
    (∀ p, mapGet reg id = some p →
      (updatePlaylist now id updates reg).fst = true ∧
      mapGet (updatePlaylist now id updates reg).snd id = some
        { p with
          name := updates.name.getD p.name,
          description :=
            match updates.description with
            | some d => some d
            | none => p.description,
          coverUrl :=
            match updates.coverUrl with
            | some c => some c
            | none => p.coverUrl,
          updatedAt := now } ∧
      (∀ k, k ≠ id →
        mapGet (updatePlaylist now id updates reg).snd k = mapGet reg k)) := by
  constructor
  · intro hnone
    simp [updatePlaylist, hnone]
  · intro p hp
    refine ⟨?_, ?_, ?_⟩
    · simp [updatePlaylist, hp]
    · simp only [updatePlaylist, hp]
      exact mapGet_mapSet_self reg id _
    · intro k hk
      simp only [updatePlaylist, hp]
      exact mapGet_mapSet_other reg id k _ hk

/-- Witness for `updatePlaylist_frame`: renaming a concrete stored playlist
keeps its songs and `createdAt` and bumps `updatedAt`. -/
theorem updatePlaylist_frame_witness :
    mapGet (updatePlaylist 50 "pl1"
        { name := some "New Name" }
        [("pl1",
          { id := "pl1", name := "Road Trip", songs := [Playback.sampleSong],
            createdAt := 7, updatedAt := 9 })]).snd "pl1" = some
      { id := "pl1", name := "New Name", songs := [Playback.sampleSong],
        createdAt := 7, updatedAt := 50 } :=
  ((updatePlaylist_frame 50 "pl1" { name := some "New Name" }
      [("pl1",
        { id := "pl1", name := "Road Trip", songs := [Playback.sampleSong],
          createdAt := 7, updatedAt := 9 })]).2
    { id := "pl1", name := "Road Trip", songs := [Playback.sampleSong],
      createdAt := 7, updatedAt := 9 } (by decide)).2.1

end Theorems

section Theorems

open Cache Download

/-- C9 counterexample: on a non-web platform, `get` on an expired
memory-cache entry returns `null` but leaves the expired entry in the cache
— the state (including the `memoryCache` entry for the key) is unchanged,
so the read does not evict it as the claim states. -/
theorem cacheGet_expired_entry_not_evicted :
    Cache.get 200 "k"
      ({ memoryCache := [("k", { data := 7, timestamp := 0, expiresAt := 100 })],
         localStorage := [], platformIsWeb := false } : CacheState Nat) =
      (none,
       { memoryCache := [("k", { data := 7, timestamp := 0, expiresAt := 100 })],
         localStorage := [], platformIsWeb := false }) ∧
    mapGet (Cache.get 200 "k"
      ({ memoryCache := [("k", { data := 7, timestamp := 0, expiresAt := 100 })],
         localStorage := [], platformIsWeb := false } : CacheState Nat)).snd.memoryCache
      "k" = some { data := 7, timestamp := 0, expiresAt := 100 } := by
  constructor <;> rfl

/-- C9 amended: `get(key)` returns a stored value only while the serving
entry satisfies `now < expiresAt`; an expired or absent entry is a miss,
but the expired in-memory entry is NOT evicted by the read — on non-web
platforms the state is returned entirely unchanged (only the web
`localStorage` mirror is cleaned on read). -/
theorem cacheGet_spec {α : Type} (now : Nat) (key : String)
    (st : CacheState α) :
    (∀ v st', Cache.get now key st = (some v, st') →
      ∃ item, now < item.expiresAt ∧ v = item.data ∧
        (mapGet st.memoryCache key = some item ∨
         (st.platformIsWeb = true ∧ mapGet st.localStorage key = some item))) ∧
    (st.platformIsWeb = false →
      ∀ item, mapGet st.memoryCache key = some item →
        ¬ now < item.expiresAt → Cache.get now key st = (none, st)) := by
  have webPathCase : ∀ v st', getWebPath now key st = (some v, st') →
      ∃ item, now < item.expiresAt ∧ v = item.data ∧
        (st.platformIsWeb = true ∧ mapGet st.localStorage key = some item) := by
    intro v st' hget
    unfold getWebPath at hget
    by_cases hweb : st.platformIsWeb
    · rw [if_pos hweb] at hget
      cases hls : mapGet st.localStorage key with
      | some parsed =>
        simp only [hls] at hget
        by_cases hf2 : now < parsed.expiresAt
        · rw [if_pos hf2] at hget
          refine ⟨parsed, hf2, ?_, hweb, rfl⟩
          injection hget with h1 h2
          injection h1 with h1
          exact h1.symm
        · rw [if_neg hf2] at hget
          exact absurd hget (by simp)
      | none =>
        simp only [hls] at hget
        exact absurd hget (by simp)
    · rw [if_neg hweb] at hget
      exact absurd hget (by simp)
  constructor
  · intro v st' hget
    unfold Cache.get at hget
    cases hmem : mapGet st.memoryCache key with
    | some memoryData =>
      simp only [hmem] at hget
      by_cases hfresh : now < memoryData.expiresAt
      · rw [if_pos hfresh] at hget
        refine ⟨memoryData, hfresh, ?_, Or.inl rfl⟩
        injection hget with h1 h2
        injection h1 with h1
        exact h1.symm
      · rw [if_neg hfresh] at hget
        obtain ⟨item, h1, h2, h3⟩ := webPathCase v st' hget
        exact ⟨item, h1, h2, Or.inr h3⟩
    | none =>
      simp only [hmem] at hget
      obtain ⟨item, h1, h2, h3⟩ := webPathCase v st' hget
      exact ⟨item, h1, h2, Or.inr h3⟩
  · intro hweb item hmem hstale
    unfold Cache.get
    simp only [hmem]
    rw [if_neg hstale]
    unfold getWebPath
    rw [if_neg (by simp [hweb])]

/-- Witness for `cacheGet_spec`: the miss-and-no-evict clause applied to the
concrete expired entry. -/
theorem cacheGet_spec_witness :
    Cache.get 200 "k"
      ({ memoryCache := [("k", { data := 7, timestamp := 0, expiresAt := 100 })],
         localStorage := [], platformIsWeb := false } : CacheState Nat) =
      (none,
       { memoryCache := [("k", { data := 7, timestamp := 0, expiresAt := 100 })],
         localStorage := [], platformIsWeb := false }) :=
  (cacheGet_spec 200 "k"
    { memoryCache := [("k", { data := 7, timestamp := 0, expiresAt := 100 })],
      localStorage := [], platformIsWeb := false }).2 rfl
    { data := 7, timestamp := 0, expiresAt := 100 } (by decide) (by decide)

end Theorems

section Theorems

open Download

/-- C1: any `downloadSong(trackId)` call made while the in-flight set is
non-empty returns a failure result synchronously — no asynchronous effect is
performed (empty trace), the registry and the in-flight set are unchanged —
and in particular when `trackId` itself is the one downloading (and not yet
downloaded) the result carries the busy message, so no duplicate registry
entry is created. -/
theorem downloadSong_rejects_while_inflight (env : DownloadEnv)
    (trackId : String) (s : DownloadState)
    (hbusy : s.currentlyDownloading ≠ []) :
    (downloadSong env trackId s).fst.success = false ∧
    (downloadSong env trackId s).snd.fst = s ∧
    (downloadSong env trackId s).snd.snd = [] ∧
    (mapGet s.downloadedSongs trackId = none →
      trackId ∈ s.currentlyDownloading →
      (downloadSong env trackId s).fst.message =
        "Song is already being downloaded") := by
  have hlen : 0 < s.currentlyDownloading.length := List.length_pos.mpr hbusy
  cases hdl : mapGet s.downloadedSongs trackId with
  | some existing =>
    refine ⟨?_, ?_, ?_, fun hnone _ => absurd hnone (by simp [hdl])⟩ <;>
      simp [downloadSong, hdl]
  | none =>
    by_cases hmem : trackId ∈ s.currentlyDownloading
    · refine ⟨?_, ?_, ?_, fun _ _ => ?_⟩ <;>
        simp [downloadSong, hdl, hmem]
    · refine ⟨?_, ?_, ?_, fun _ hm => absurd hm hmem⟩ <;>
        simp [downloadSong, hdl, hmem, hlen]

/-- Witness for `downloadSong_rejects_while_inflight`: a concrete call for a
track already being downloaded fails with the busy message and changes
nothing. -/
theorem downloadSong_rejects_while_inflight_witness :
    (downloadSong
      { getDownloadInfo := Except.ok none, downloadFile := none,
        downloadCoverImage := none, platformIsWeb := false, now := 0 }
      "t1" { downloadedSongs := [], currentlyDownloading := ["t1"] }).fst.message =
      "Song is already being downloaded" :=
  (downloadSong_rejects_while_inflight
    { getDownloadInfo := Except.ok none, downloadFile := none,
      downloadCoverImage := none, platformIsWeb := false, now := 0 }
    "t1" { downloadedSongs := [], currentlyDownloading := ["t1"] }
    (by decide)).2.2.2 rfl (by decide)

/-- C7: starting from a state with no download in flight, every exit path of
`downloadSong` — success, track-not-found, thrown network error, and file
failure — leaves the in-flight set empty (the marker added on acceptance is
always removed before returning); and the thrown error is converted into a
structured failure result (`Download failed: ...`), never propagated. -/
theorem downloadSong_clears_inflight (env : DownloadEnv) (trackId : String)
    (s : DownloadState) (hempty : s.currentlyDownloading = []) :
    (downloadSong env trackId s).snd.fst.currentlyDownloading = [] ∧
    (∀ e, env.getDownloadInfo = Except.error e →
      mapGet s.downloadedSongs trackId = none →
      (downloadSong env trackId s).fst.success = false ∧
      (downloadSong env trackId s).fst.message = "Download failed: " ++ e) := by
  cases hdl : mapGet s.downloadedSongs trackId with
  | some existing =>
    refine ⟨by simp [downloadSong, hdl, hempty], ?_⟩
    intro e _ hnone
    exact absurd hnone (by simp [hdl])
  | none =>
    cases hinfo : env.getDownloadInfo with
    | error e =>
      constructor
      · simp [downloadSong, hdl, hempty, hinfo, setAdd, setDelete]
      · intro e' he' _
        injection he' with he'
        subst he'
        constructor <;>
          simp [downloadSong, hdl, hempty, hinfo, setAdd, setDelete]
    | ok info =>
      refine ⟨?_, ?_⟩
      · cases info with
        | none => simp [downloadSong, hdl, hempty, hinfo, setAdd, setDelete]
        | some downloadData =>
          by_cases hweb : env.platformIsWeb
          · simp [downloadSong, hdl, hempty, hinfo, hweb, setAdd, setDelete]
          · cases hfile : env.downloadFile with
            | none =>
              simp [downloadSong, hdl, hempty, hinfo, hweb, hfile, setAdd, setDelete]
            | some p =>
              simp [downloadSong, hdl, hempty, hinfo, hweb, hfile, setAdd, setDelete]
      · intro e he' _
        exact absurd he' (by simp)

/-- Witness for `downloadSong_clears_inflight`: a concrete run whose network
call throws ends with an empty in-flight set and a structured failure. -/
theorem downloadSong_clears_inflight_witness :
    (downloadSong
      { getDownloadInfo := Except.error "network down", downloadFile := none,
        downloadCoverImage := none, platformIsWeb := false, now := 0 }
      "t1" { downloadedSongs := [], currentlyDownloading := [] }).snd.fst.currentlyDownloading = [] ∧
    (downloadSong
      { getDownloadInfo := Except.error "network down", downloadFile := none,
        downloadCoverImage := none, platformIsWeb := false, now := 0 }
      "t1" { downloadedSongs := [], currentlyDownloading := [] }).fst.message =
      "Download failed: network down" := by
  have h := downloadSong_clears_inflight
    { getDownloadInfo := Except.error "network down", downloadFile := none,
      downloadCoverImage := none, platformIsWeb := false, now := 0 }
    "t1" { downloadedSongs := [], currentlyDownloading := [] } (by decide)
  exact ⟨h.1, (h.2 "network down" rfl (by decide)).2⟩

end Theorems

section Theorems

open Playlists Download

theorem registryInv_mapSet (reg : Registry) (k : String) (v : Playlist)
    (hinv : registryInv reg) (hv : songsNodup v) :
    registryInv (mapSet reg k v) := by
  intro e he
  unfold mapSet at he
  by_cases hfind : (reg.find? (fun e => e.fst == k)).isSome
  · rw [if_pos hfind] at he
    obtain ⟨e0, he0, heq⟩ := List.mem_map.mp he
    by_cases hk : e0.fst = k
    · have : e = (k, v) := by simpa [hk] using heq.symm
      rw [this]
      exact hv
    · have : e = e0 := by simpa [hk] using heq.symm
      rw [this]
      exact hinv e0 he0
  · rw [if_neg hfind] at he
    rcases List.mem_append.mp he with h | h
    · exact hinv e h
    · have : e = (k, v) := by simpa using h
      rw [this]
      exact hv

/-- C6 counterexample: `reorderPlaylistSongs` installs the caller-supplied
sequence with no duplicate check, so reordering a valid one-song playlist
with a duplicated song breaks the no-duplicate-track-id invariant — the
claim that the invariant is preserved by every registry operation
(including reorder) is false. -/
theorem reorder_breaks_playlist_invariant :
    registryInv
      [("pl1", { id := "pl1", name := "P", songs := [Playback.sampleSong],
                 createdAt := 1, updatedAt := 1 })] ∧
    ¬ registryInv
      (reorderPlaylistSongs 5 "pl1" [Playback.sampleSong, Playback.sampleSong]
        [("pl1", { id := "pl1", name := "P", songs := [Playback.sampleSong],
                   createdAt := 1, updatedAt := 1 })]).snd := by
  constructor
  · decide
  · decide

theorem mapGet_some_mem {β : Type} (m : List (String × β)) (k : String)
    (v : β) (h : Download.mapGet m k = some v) : ∃ e ∈ m, e.snd = v := by
  unfold Download.mapGet at h
  cases hfind : m.find? (fun e => e.fst == k) with
  | none =>
    simp only [hfind] at h
    exact Option.noConfusion h
  | some e0 =>
    simp only [hfind, Option.some.injEq] at h
    exact ⟨e0, List.mem_of_find?_eq_some hfind, h⟩

/-- C6 amended: the no-duplicate-track-id invariant is preserved by
`createPlaylist`, `updatePlaylist`, `addSongToPlaylist`,
`removeSongFromPlaylist` and `duplicatePlaylist`, and by
`reorderPlaylistSongs` whenever the caller-supplied order itself has no
duplicate ids (the operation performs no duplicate check of its own);
`addSongToPlaylist` with a track id already present returns `false` and
leaves the registry (hence the playlist's song count) unchanged. -/
theorem playlist_invariant_preservation (now : Nat) (reg : Registry)
    (hinv : registryInv reg) :
    (∀ newId data, registryInv (createPlaylist newId now data reg).snd) ∧
    (∀ id updates, registryInv (updatePlaylist now id updates reg).snd) ∧
    (∀ pid song, registryInv (addSongToPlaylist now pid song reg).snd) ∧
    (∀ pid sid, registryInv (removeSongFromPlaylist now pid sid reg).snd) ∧
    (∀ pid newOrder, (newOrder.map (fun s => s.id)).Nodup →
      registryInv (reorderPlaylistSongs now pid newOrder reg).snd) ∧
    (∀ newId id newName,
      registryInv (duplicatePlaylist newId now id newName reg).snd) ∧
    (∀ pid song p, mapGet reg pid = some p →
      song.id ∈ p.songs.map (fun s => s.id) →
      addSongToPlaylist now pid song reg = (false, reg)) := by
  have nodupOf : ∀ (k : String) (p : Playlist), mapGet reg k = some p →
      songsNodup p := by
    intro k p hget
    obtain ⟨e, hmem, hsnd⟩ := mapGet_some_mem reg k p hget
    rw [← hsnd]
    exact hinv e hmem
  refine ⟨?_, ?_, ?_, ?_, ?_, ?_, ?_⟩
  · intro newId data
    exact registryInv_mapSet _ _ _ hinv (by simp [songsNodup])
  · intro id updates
    unfold updatePlaylist
    cases hdl : mapGet reg id with
    | none => exact hinv
    | some p =>
      dsimp only
      exact registryInv_mapSet _ _ _ hinv (nodupOf id p hdl)
  · intro pid song
    unfold addSongToPlaylist
    cases hdl : mapGet reg pid with
    | none => exact hinv
    | some p =>
      dsimp only
      by_cases hany : p.songs.any (fun s => s.id == song.id)
      · rw [if_pos hany]
        exact hinv
      · rw [if_neg hany]
        apply registryInv_mapSet _ _ _ hinv
        have hno : song.id ∉ p.songs.map (fun s => s.id) := by
          intro hmem
          obtain ⟨x, hx, hxid⟩ := List.mem_map.mp hmem
          exact hany (List.any_eq_true.mpr ⟨x, hx, by simp [hxid]⟩)
        unfold songsNodup
        simp only [List.map_append, List.map_cons, List.map_nil]
        rw [List.nodup_append]
        refine ⟨nodupOf pid p hdl, List.nodup_singleton _, ?_⟩
        intro x hx hx1
        rw [List.mem_singleton.mp hx1] at hx
        exact hno hx
  · intro pid sid
    unfold removeSongFromPlaylist
    cases hdl : mapGet reg pid with
    | none => exact hinv
    | some p =>
      dsimp only
      by_cases hlen : (p.songs.filter (fun song => song.id ≠ sid)).length = p.songs.length
      · rw [if_pos hlen]
        exact hinv
      · rw [if_neg hlen]
        apply registryInv_mapSet _ _ _ hinv
        unfold songsNodup
        exact (nodupOf pid p hdl).sublist
          (List.Sublist.map _ (List.filter_sublist _))
  · intro pid newOrder hnodup
    unfold reorderPlaylistSongs
    cases hdl : mapGet reg pid with
    | none => exact hinv
    | some p =>
      dsimp only
      exact registryInv_mapSet _ _ _ hinv hnodup
  · intro newId id newName
    unfold duplicatePlaylist
    cases hdl : mapGet reg id with
    | none => exact hinv
    | some p =>
      dsimp only
      exact registryInv_mapSet _ _ _ hinv (nodupOf id p hdl)
  · intro pid song p hget hmem
    unfold addSongToPlaylist
    rw [hget]
    dsimp only
    obtain ⟨x, hx, hxid⟩ := List.mem_map.mp hmem
    rw [if_pos (List.any_eq_true.mpr ⟨x, hx, by simp [hxid]⟩)]

/-- Witness for `playlist_invariant_preservation`: adding an
already-present track id to a concrete playlist returns `false` and leaves
the registry unchanged. -/
theorem playlist_invariant_preservation_witness :
    addSongToPlaylist 5 "pl1" Playback.sampleSong
      [("pl1", { id := "pl1", name := "P", songs := [Playback.sampleSong],
                 createdAt := 1, updatedAt := 1 })] =
    (false,
      [("pl1", { id := "pl1", name := "P", songs := [Playback.sampleSong],
                 createdAt := 1, updatedAt := 1 })]) :=
  (playlist_invariant_preservation 5
    [("pl1", { id := "pl1", name := "P", songs := [Playback.sampleSong],
               createdAt := 1, updatedAt := 1 })]
    (by decide)).2.2.2.2.2.2 "pl1" Playback.sampleSong
    { id := "pl1", name := "P", songs := [Playback.sampleSong],
      createdAt := 1, updatedAt := 1 } (by decide) (by decide)

end Theorems

section Theorems

open Reconcile Download

/-- C8 counterexample: the already-notified marker has a finite TTL
(86400 s) and approved records are never removed from the stored list, so
the same record can be notified twice: a first
`createApprovalNotification` at time 0 emits, and a second call at time
86400000 ms (when the marker has just expired) emits again — contradicting
"at most one user-facing notification is ever emitted for that record over
its whole lifetime". -/
theorem approval_notification_emitted_twice :
    (createApprovalNotification 0 "fix" "r1"
      { memoryCache := [], localStorage := [], platformIsWeb := false }).fst
      = true ∧
    (createApprovalNotification 86400000 "fix" "r1"
      (createApprovalNotification 0 "fix" "r1"
        { memoryCache := [], localStorage := [],
          platformIsWeb := false }).snd).fst = true := by
  constructor <;> rfl

/-- C8 amended: a reconciliation tick flips every pending record whose id
appears in the remote completion list (HTTP 200) to approved and persists
the updated list; no record is ever removed from the stored list (it only
leaves the pending subset by its status change); after a notification is
emitted for a record, no further notification is emitted while the
already-notified marker (24-hour TTL) is unexpired — once the marker
expires a further notification can be emitted for the same record. -/
theorem reconciliation_flip_and_dedup
    (remote : Except String (Nat × List String))
    (reports : List FixSongReport) :
    ((checkFixReportsStatus remote reports).fst.length = reports.length) ∧
    (∀ status fixedIds, remote = Except.ok (status, fixedIds) →
      status = 200 →
      (∃ r ∈ reports, r.status = RStatus.pending ∧ fixedIds.contains r.id) →
      (checkFixReportsStatus remote reports).snd = true ∧
      (checkFixReportsStatus remote reports).fst =
        reports.map (fun report =>
          if report.status == RStatus.pending && fixedIds.contains report.id
          then { report with status := RStatus.approved } else report)) ∧
    (∀ now typeStr id cache emitted cache',
      createApprovalNotification now typeStr id cache = (emitted, cache') →
      emitted = true →
      ∀ t, t < now + 86400000 →
        (createApprovalNotification t typeStr id cache').fst = false) := by
  refine ⟨?_, ?_, ?_⟩
  · unfold checkFixReportsStatus
    by_cases hp : (reports.filter (fun report => report.status == RStatus.pending)).length = 0
    · rw [if_pos hp]
    · rw [if_neg hp]
      cases remote with
      | error e => rfl
      | ok resp =>
        obtain ⟨status, fixedIds⟩ := resp
        dsimp only
        by_cases hs : status = 200
        · rw [if_pos hs]
          by_cases hu : reports.any (fun report =>
            report.status == RStatus.pending && fixedIds.contains report.id)
          · rw [if_pos hu]
            exact List.length_map _ _
          · rw [if_neg hu]
        · rw [if_neg hs]
  · intro status fixedIds hremote hs hex
    subst hremote
    obtain ⟨r, hrmem, hrpend, hrid⟩ := hex
    have hpend : ¬ (reports.filter (fun report => report.status == RStatus.pending)).length = 0 := by
      intro h0
      have : r ∈ reports.filter (fun report => report.status == RStatus.pending) :=
        List.mem_filter.mpr ⟨hrmem, by simp [hrpend]⟩
      rw [List.length_eq_zero.mp h0] at this
      exact absurd this (List.not_mem_nil r)
    have hany : reports.any (fun report =>
        report.status == RStatus.pending && fixedIds.contains report.id) = true := by
      have hrid2 : r.id ∈ fixedIds := by simpa using hrid
      exact List.any_eq_true.mpr ⟨r, hrmem, by simp [hrpend, hrid2]⟩
    unfold checkFixReportsStatus
    rw [if_neg hpend]
    dsimp only
    rw [if_pos hs, if_pos hany]
    exact ⟨rfl, rfl⟩
  · intro now typeStr id cache emitted cache2 hcall hemit t ht
    subst hemit
    unfold createApprovalNotification at hcall
    dsimp only at hcall
    have hcache2 : cache2 =
        Cache.set now ("notification_" ++ typeStr ++ "_" ++ id) true 86400
          (Cache.get now ("notification_" ++ typeStr ++ "_" ++ id) cache).snd := by
      cases hgot : (Cache.get now ("notification_" ++ typeStr ++ "_" ++ id) cache).fst with
      | some b =>
        rw [hgot] at hcall
        cases b with
        | true => simp at hcall
        | false =>
          simp only [Bool.false_eq_true, if_false] at hcall
          injection hcall with h1 h2
          exact h2.symm
      | none =>
        rw [hgot] at hcall
        injection hcall with h1 h2
        exact h2.symm
    have hmem : Download.mapGet cache2.memoryCache
        ("notification_" ++ typeStr ++ "_" ++ id) =
        some { data := true, timestamp := now, expiresAt := now + 86400 * 1000 } := by
      rw [hcache2]
      unfold Cache.set
      dsimp only
      by_cases hweb : (Cache.get now ("notification_" ++ typeStr ++ "_" ++ id) cache).snd.platformIsWeb
      · rw [if_pos hweb]
        exact mapGet_mapSet_self _ _ _
      · rw [if_neg hweb]
        exact mapGet_mapSet_self _ _ _
    have hfresh : t < now + 86400 * 1000 := by omega
    unfold createApprovalNotification Cache.get
    dsimp only
    rw [hmem]
    dsimp only
    rw [if_pos hfresh]
    rfl

/-- Witness for `reconciliation_flip_and_dedup`: a concrete tick flips a
concrete pending report found in the remote completion list and persists,
and a repeat notification attempt one millisecond after emission is
suppressed by the marker. -/
theorem reconciliation_flip_and_dedup_witness :
    (checkFixReportsStatus (Except.ok (200, ["r1"]))
      [{ id := "r1", name := "S", artists := "A", album := "B",
         downloadedAt := 1, reportedAt := 2,
         status := RStatus.pending }]).snd = true ∧
    (createApprovalNotification 1 "fix" "r1"
      (createApprovalNotification 0 "fix" "r1"
        { memoryCache := [], localStorage := [],
          platformIsWeb := false }).snd).fst = false := by
  have h := reconciliation_flip_and_dedup (Except.ok (200, ["r1"]))
    [{ id := "r1", name := "S", artists := "A", album := "B",
       downloadedAt := 1, reportedAt := 2, status := RStatus.pending }]
  refine ⟨(h.2.1 200 ["r1"] rfl rfl ?_).1, ?_⟩
  · exact ⟨_, List.mem_singleton_self _, rfl, by decide⟩
  · exact h.2.2 0 "fix" "r1"
      { memoryCache := [], localStorage := [], platformIsWeb := false }
      true _ rfl rfl 1 (by decide)

end Theorems

section Theorems

open Engine

/-- C2: evaluating the audio engine at a natural end-of-track
(`didJustFinish = true`): the engine does reset position to 0 and leave the
playing state (Idle, polling stopped, status listeners notified), but it
raises NO end-of-track signal — for every engine state and every
`didJustFinish` status update the emitted event list never contains
`songEndSignal`, so the queue controller's `handleSongEnd` reaction
(repeat-one replay / `playNext()` / `stop()`) is never triggered.  (The
queue controller registers via `audioService.setOnSongEndCallback`, a
method the `AudioService` class does not define.) -/
theorem onPlaybackStatusUpdate_no_end_signal (st : AudioState)
    (status : AVStatus) (hload : status.isLoaded = true)
    (hfin : status.didJustFinish = true) (herr : status.error = none) :
    (onPlaybackStatusUpdate st status).fst.isPlaying = false ∧
    (onPlaybackStatusUpdate st status).fst.position = 0 ∧
    (onPlaybackStatusUpdate st status).fst.pollingActive = false ∧
    (onPlaybackStatusUpdate st status).snd = [AudioEvent.statusNotify] ∧
    (∀ st2 status2,
      AudioEvent.songEndSignal ∉ (onPlaybackStatusUpdate st2 status2).snd) := by
  refine ⟨?_, ?_, ?_, ?_, ?_⟩
  · simp [onPlaybackStatusUpdate, hload, hfin, herr]
  · simp [onPlaybackStatusUpdate, hload, hfin, herr]
  · simp [onPlaybackStatusUpdate, hload, hfin, herr]
  · simp [onPlaybackStatusUpdate, hload, hfin, herr]
  · intro st2 status2
    unfold onPlaybackStatusUpdate
    cases h2 : status2.error with
    | some e =>
      dsimp only
      by_cases hl : status2.isLoaded <;>
        by_cases hf : status2.didJustFinish <;>
          simp [hl, hf, Engine.stop] <;>
            by_cases hs : (if status2.didJustFinish = true then False else True) <;>
              split <;> simp
    | none =>
      dsimp only
      by_cases hl : status2.isLoaded <;>
        by_cases hf : status2.didJustFinish <;>
          simp [hl, hf]

/-- Witness for `onPlaybackStatusUpdate_no_end_signal` at a concrete
finished-track status. -/
theorem onPlaybackStatusUpdate_no_end_signal_witness :
    (onPlaybackStatusUpdate
      { currentSong := some Playback.sampleSong, isPlaying := true,
        position := 180000, duration := 180000, soundLoaded := true,
        pollingActive := true }
      { isLoaded := true, positionMillis := some 180000,
        durationMillis := some 180000, didJustFinish := true }).fst.position = 0 :=
  (onPlaybackStatusUpdate_no_end_signal
    { currentSong := some Playback.sampleSong, isPlaying := true,
      position := 180000, duration := 180000, soundLoaded := true,
      pollingActive := true }
    { isLoaded := true, positionMillis := some 180000,
      durationMillis := some 180000, didJustFinish := true }
    rfl rfl rfl).2.1

end Theorems

section ShuffleLemmas

open Playback

theorem cons_set_perm {α : Type} :
    ∀ (t : List α) (k : Nat) (b x : α), t.get? k = some b →
      List.Perm (b :: t.set k x) (x :: t)
  | [], k, b, x, h => by simp at h
  | c :: s, 0, b, x, h => by
    obtain rfl : c = b := by simpa using h
    exact List.Perm.swap x c s
  | c :: s, k + 1, b, x, h => by
    have hs : s.get? k = some b := by simpa using h
    have h1 : List.Perm (b :: c :: s.set k x) (c :: b :: s.set k x) :=
      List.Perm.swap c b _
    have h2 : List.Perm (c :: b :: s.set k x) (c :: x :: s) :=
      List.Perm.cons c (cons_set_perm s k b x hs)
    have h3 : List.Perm (c :: x :: s) (x :: c :: s) :=
      List.Perm.swap x c s
    exact (h1.trans h2).trans h3

theorem set_set_swap_perm {α : Type} :
    ∀ (l : List α) (i j : Nat) (a b : α),
      l.get? i = some a → l.get? j = some b →
      List.Perm ((l.set i b).set j a) l
  | [], i, j, a, b, ha, hb => by simp at ha
  | x :: t, 0, 0, a, b, ha, hb => by
    obtain rfl : x = a := by simpa using ha
    obtain rfl : x = b := by simpa using hb
    exact List.Perm.refl _
  | x :: t, 0, k + 1, a, b, ha, hb => by
    obtain rfl : x = a := by simpa using ha
    have hb2 : t.get? k = some b := by simpa using hb
    exact cons_set_perm t k b x hb2
  | x :: t, m + 1, 0, a, b, ha, hb => by
    obtain rfl : x = b := by simpa using hb
    have ha2 : t.get? m = some a := by simpa using ha
    exact cons_set_perm t m a x ha2
  | x :: t, m + 1, k + 1, a, b, ha, hb => by
    have ha2 : t.get? m = some a := by simpa using ha
    have hb2 : t.get? k = some b := by simpa using hb
    exact List.Perm.cons x (set_set_swap_perm t m k a b ha2 hb2)

theorem listSwap_perm {α : Type} (l : List α) (i j : Nat) :
    List.Perm (listSwap l i j) l := by
  unfold listSwap
  cases hi : l.get? i with
  | none =>
    cases hj : l.get? j with
    | none => exact List.Perm.refl l
    | some b => exact List.Perm.refl l
  | some a =>
    cases hj : l.get? j with
    | none => exact List.Perm.refl l
    | some b => exact set_set_swap_perm l i j a b hi hj

theorem fyLoop_perm {α : Type} (r : Nat → Nat) :
    ∀ (n : Nat) (l : List α), List.Perm (fyLoop r n l) l
  | 0, l => List.Perm.refl l
  | n + 1, l =>
    (fyLoop_perm r n (listSwap l (n + 1) (r (n + 1) % (n + 2)))).trans
      (listSwap_perm l (n + 1) (r (n + 1) % (n + 2)))

theorem shuffleArray_perm {α : Type} (r : Nat → Nat) (l : List α) :
    List.Perm (shuffleArray r l) l :=
  fyLoop_perm r (l.length - 1) l

theorem findIndexJS_found {α : Type} (p : α → Bool) (l : List α)
    (h : ∃ x ∈ l, p x) :
    ∃ n : Nat, findIndexJS p l = (n : Int) ∧
      ∃ y, getJS l (n : Int) = some y ∧ p y := by
  obtain ⟨x, hx, hpx⟩ := h
  have hfind := List.findIdx?_eq_some_of_exists ⟨x, hx, hpx⟩
  rw [List.findIdx?_eq_some_iff_getElem] at hfind
  obtain ⟨hlt, hp, _⟩ := hfind
  refine ⟨l.findIdx p, ?_, l[l.findIdx p], ?_, hp⟩
  · unfold findIndexJS
    rw [List.findIdx?_eq_some_of_exists ⟨x, hx, hpx⟩]
  · unfold getJS
    rw [if_neg (by omega)]
    simp only [Int.toNat_ofNat]
    exact List.get?_eq_get hlt

end ShuffleLemmas

section Theorems

open Playback

theorem toggleShuffle_on_eq (r : Nat → Nat) (q : PlaybackQueue)
    (curSong : DownloadedSong)
    (hne0 : ¬ q.songs.length = 0) (hshuf : q.isShuffled = false)
    (hcur : getJS q.songs q.currentIndex = some curSong)
    (horig : (match q.originalOrder with
              | none => some q.songs
              | some o => some o) = some q.songs) :
    toggleShuffle r q = some (true,
      { q with songs := shuffleArray r q.songs,
               currentIndex := findIndexJS (fun s => s.id == curSong.id)
                 (shuffleArray r q.songs),
               isShuffled := true, originalOrder := some q.songs }) := by
  unfold toggleShuffle
  rw [if_neg hne0, hshuf]
  dsimp only
  rw [hcur, horig]
  rfl

theorem toggleShuffle_off_eq (r : Nat → Nat) (q : PlaybackQueue)
    (curSong : DownloadedSong) (orig : List DownloadedSong)
    (hne0 : ¬ q.songs.length = 0) (hshuf : q.isShuffled = true)
    (horigo : q.originalOrder = some orig)
    (hcur : getJS q.songs q.currentIndex = some curSong) :
    toggleShuffle r q = some (false,
      { q with songs := orig,
               currentIndex := findIndexJS (fun s => s.id == curSong.id) orig,
               isShuffled := false }) := by
  unfold toggleShuffle
  rw [if_neg hne0, hshuf]
  dsimp only
  rw [horigo, hcur]
  rfl

end Theorems

section Theorems

open Playback

/-- C5: for every non-empty, unshuffled queue with an in-bounds current
index (and `originalOrder` either unset or equal to the live order, as in
every reachable state), toggling shuffle on and then off restores exactly
the original song ordering, and after each of the two toggles the track at
the current index is located by id and carries the id of the originally
current track. -/
theorem toggleShuffle_roundtrip (r1 r2 : Nat → Nat) (q : PlaybackQueue)
    (hne : q.songs ≠ []) (hlo : 0 ≤ q.currentIndex)
    (hhi : q.currentIndex < (q.songs.length : Int))
    (hshuf : q.isShuffled = false)
    (horig : q.originalOrder = none ∨ q.originalOrder = some q.songs) :
    ∃ curSong q1 q2,
      getJS q.songs q.currentIndex = some curSong ∧
      toggleShuffle r1 q = some (true, q1) ∧
      toggleShuffle r2 q1 = some (false, q2) ∧
      q2.songs = q.songs ∧
      (∃ s1, getJS q1.songs q1.currentIndex = some s1 ∧ s1.id = curSong.id) ∧
      (∃ s2, getJS q2.songs q2.currentIndex = some s2 ∧ s2.id = curSong.id) := by
  have hne0 : ¬ q.songs.length = 0 := by
    simpa using List.length_pos.mpr hne |>.ne'
  have hin : q.currentIndex.toNat < q.songs.length := by omega
  have hcur : getJS q.songs q.currentIndex =
      some (q.songs.get ⟨q.currentIndex.toNat, hin⟩) := by
    unfold getJS
    rw [if_neg (by omega)]
    exact List.get?_eq_get hin
  have hmem : q.songs.get ⟨q.currentIndex.toNat, hin⟩ ∈ q.songs :=
    List.get_mem _ _ _
  have horig2 : (match q.originalOrder with
      | none => some q.songs
      | some o => some o) = some q.songs := by
    rcases horig with h | h <;> rw [h]
  have hperm1 := shuffleArray_perm r1 q.songs
  have hmem1 : q.songs.get ⟨q.currentIndex.toNat, hin⟩ ∈ shuffleArray r1 q.songs :=
    hperm1.mem_iff.mpr hmem
  obtain ⟨n1, hfi1, y1, hy1, hpy1⟩ :=
    findIndexJS_found
      (fun s => s.id == (q.songs.get ⟨q.currentIndex.toNat, hin⟩).id)
      (shuffleArray r1 q.songs)
      ⟨q.songs.get ⟨q.currentIndex.toNat, hin⟩, hmem1, by simp⟩
  have hy1id : y1.id = (q.songs.get ⟨q.currentIndex.toNat, hin⟩).id := by
    simpa using hpy1
  have htog1 := toggleShuffle_on_eq r1 q
    (q.songs.get ⟨q.currentIndex.toNat, hin⟩) hne0 hshuf hcur horig2
  have hcur1 : getJS (shuffleArray r1 q.songs)
      (findIndexJS
        (fun s => s.id == (q.songs.get ⟨q.currentIndex.toNat, hin⟩).id)
        (shuffleArray r1 q.songs)) = some y1 := by
    rw [hfi1]
    exact hy1
  have hne1 : ¬ (shuffleArray r1 q.songs).length = 0 := by
    rw [hperm1.length_eq]
    exact hne0
  have htog2 := toggleShuffle_off_eq r2
    { q with songs := shuffleArray r1 q.songs,
             currentIndex := findIndexJS
               (fun s => s.id == (q.songs.get ⟨q.currentIndex.toNat, hin⟩).id)
               (shuffleArray r1 q.songs),
             isShuffled := true, originalOrder := some q.songs }
    y1 q.songs hne1 rfl rfl hcur1
  obtain ⟨n2, hfi2, y2, hy2, hpy2⟩ :=
    findIndexJS_found (fun s => s.id == y1.id) q.songs
      ⟨q.songs.get ⟨q.currentIndex.toNat, hin⟩, hmem, by simp [hy1id]⟩
  have hy2id : y2.id = (q.songs.get ⟨q.currentIndex.toNat, hin⟩).id := by
    have h2 : y2.id = y1.id := by simpa using hpy2
    rw [h2, hy1id]
  have hcur2 : getJS q.songs (findIndexJS (fun s => s.id == y1.id) q.songs) =
      some y2 := by
    rw [hfi2]
    exact hy2
  exact ⟨q.songs.get ⟨q.currentIndex.toNat, hin⟩,
    { q with songs := shuffleArray r1 q.songs,
             currentIndex := findIndexJS
               (fun s => s.id == (q.songs.get ⟨q.currentIndex.toNat, hin⟩).id)
               (shuffleArray r1 q.songs),
             isShuffled := true, originalOrder := some q.songs },
    { q with songs := q.songs,
             currentIndex := findIndexJS (fun s => s.id == y1.id) q.songs,
             isShuffled := false, originalOrder := some q.songs },
    hcur, htog1, htog2, rfl, ⟨y1, hcur1, hy1id⟩, ⟨y2, hcur2, hy2id⟩⟩

/-- Witness for `toggleShuffle_roundtrip` at a concrete two-song queue and
a concrete randomness oracle. -/
theorem toggleShuffle_roundtrip_witness :
    ∃ curSong q1 q2,
      getJS ([sampleSong, sampleSong2]) 0 = some curSong ∧
      toggleShuffle (fun _ => 0)
        { songs := [sampleSong, sampleSong2], currentIndex := 0,
          isShuffled := false, repeatMode := RepeatMode.off,
          originalOrder := none } = some (true, q1) ∧
      toggleShuffle (fun _ => 1) q1 = some (false, q2) ∧
      q2.songs = [sampleSong, sampleSong2] ∧
      (∃ s1, getJS q1.songs q1.currentIndex = some s1 ∧ s1.id = curSong.id) ∧
      (∃ s2, getJS q2.songs q2.currentIndex = some s2 ∧ s2.id = curSong.id) :=
  toggleShuffle_roundtrip (fun _ => 0) (fun _ => 1)
    { songs := [sampleSong, sampleSong2], currentIndex := 0,
      isShuffled := false, repeatMode := RepeatMode.off,
      originalOrder := none }
    (by decide) (by decide) (by decide) rfl (Or.inl rfl)

end Theorems
